import Mathlib

/-!
Shallow embedding of the authenticated HTTP request pipeline in
`src/rust/crates/httpclient/src/request.rs` (request builder, header
assembly, endpoint resolution, single-attempt classification, and the
429-retry controller of `send`), together with theorems settling the
frozen claims about it.

Conventions:
* `reqwest::StatusCode` is modelled as `Nat` (its `u16` value); `i32`
  envelope codes as `Int`; `Duration` as its exact total length in
  nanoseconds (`Nat`).
* Header names are kept in their normalized (lowercased) form, exactly as
  `http::HeaderName` stores them; a header map is a list of
  `(name, value)` pairs whose per-name value order matches
  `http::HeaderMap` insertion order.
* Fallible external events (transport outcome, body-envelope parse
  outcome, payload decoding) enter the model as explicit parameters, so
  every theorem quantifies over all of their possible results.
-/

set_option linter.unusedVariables false

namespace OpenApiHttp

/-- The error taxonomy of the client.  The variant set and payloads are
taken from the uses in `request.rs` (the enum itself lives in the same
crate outside `src/`, matching spec §7's list). -/
inductive HttpClientError where
  | InvalidApiKey
  | InvalidAccessToken
  | SerializeRequestBody (msg : String)
  | DeserializeResponseBody (msg : String)
  | RequestTimeout
  | Http (msg : String)
  | BadStatus (status : Nat)
  | OpenApi (code : Int) (message : String) (trace_id : String)
  | UnexpectedResponse
deriving DecidableEq, Repr

/-- `struct OpenApiResponse { code: i32, message: String, data: Option<RawValue> }`
(request.rs lines 112–117).  `data` keeps the raw JSON text of the
`data` field, as `Box<RawValue>` does. -/
structure OpenApiResponse where
  code : Int
  message : String
  data : Option String
deriving DecidableEq, Repr

/- ----------------------------------------------------------------
   Header validity and header maps
   ---------------------------------------------------------------- -/

/-- Valid `http::HeaderName` byte: RFC 7230 token characters, the set
accepted by `HeaderName::try_from(&str)` (which lowercases A–Z). -/
def isTokenChar (c : Char) : Bool :=
  let n := c.toNat
  (97 ≤ n && n ≤ 122) || (65 ≤ n && n ≤ 90) || (48 ≤ n && n ≤ 57) ||
  n == 33 || n == 35 || n == 36 || n == 37 || n == 38 || n == 39 ||
  n == 42 || n == 43 || n == 45 || n == 46 || n == 94 || n == 95 ||
  n == 96 || n == 124 || n == 126

/-- `TryInto<HeaderName>` succeeds exactly on nonempty token strings. -/
def isValidHeaderName (s : String) : Bool :=
  !s.isEmpty && s.data.all isTokenChar

/-- Valid `http::HeaderValue` character: `HeaderValue::from_str` accepts
byte `b` iff `b >= 32 && b != 127 || b == 9`; every byte of a UTF-8
multibyte character is ≥ 128, so the check is per character. -/
def isValidHeaderValueChar (c : Char) : Bool :=
  c.toNat == 9 || (32 ≤ c.toNat && c.toNat != 127)

/-- `TryInto<HeaderValue>` / `HeaderValue::from_str` success on a string. -/
def isValidHeaderValue (s : String) : Bool :=
  s.data.all isValidHeaderValueChar

/-- `HeaderName` normalization: ASCII uppercase is lowercased. -/
def toLowerName (s : String) : String :=
  String.mk (s.data.map fun c =>
    if 65 ≤ c.toNat && c.toNat ≤ 90 then Char.ofNat (c.toNat + 32) else c)

/-- A header map: `(normalized name, value)` pairs. -/
abbrev HeaderMap := List (String × String)

/-- All values stored for a name, in insertion order
(`HeaderMap::get_all`). -/
def getAll (m : HeaderMap) (k : String) : List String :=
  (List.filter (fun p => p.1 == k) m).map Prod.snd

/-- First stored value for a name (`HeaderMap::get`). -/
def lookupHeader (m : HeaderMap) (k : String) : Option String :=
  (getAll m k).head?

/-- `HeaderMap::insert`: drops every existing value for the name and
stores the new one. -/
def insertHeader (m : HeaderMap) (k v : String) : HeaderMap :=
  List.filter (fun p => !(p.1 == k)) m ++ [(k, v)]

/-- `HeaderMap::append`: keeps existing values and adds one more. -/
def appendHeader (m : HeaderMap) (k v : String) : HeaderMap :=
  m ++ [(k, v)]

/-- `RequestBuilder::header` (request.rs lines 164–175): convert the
name and value; if either conversion fails the builder is returned
unchanged, otherwise `HeaderMap::insert` replaces any previous value
under the (normalized) name. -/
def builderHeader (m : HeaderMap) (key value : String) : HeaderMap :=
  if isValidHeaderName key && isValidHeaderValue value then
    insertHeader m (toLowerName key) value
  else m

/-- `reqwest::util::replace_headers`, the semantics of
`reqwest::RequestBuilder::headers(src)`: the first value of each name in
`src` replaces all of `dst`'s values for that name; further values of an
already-seen name are appended. -/
def replaceHeadersAux (dst : HeaderMap) (seen : List String) :
    List (String × String) → HeaderMap
  | [] => dst
  | (k, v) :: rest =>
    if k ∈ seen then
      replaceHeadersAux (dst ++ [(k, v)]) seen rest
    else
      replaceHeadersAux (List.filter (fun p => !(p.1 == k)) dst ++ [(k, v)])
        (k :: seen) rest

def replaceHeaders (dst : HeaderMap) (src : List (String × String)) : HeaderMap :=
  replaceHeadersAux dst [] src

def USER_AGENT : String := "openapi-sdk"

/-- The five fixed protocol headers of `do_send` (request.rs lines
248–252).  `reqwest::RequestBuilder::header` calls
`HeaderMap::append`, so these are appended after the merged defaults and
per-request headers, not inserted over them. -/
def applyFixedHeaders (m : HeaderMap) (appKey accessToken tsStr : String) : HeaderMap :=
  appendHeader (appendHeader (appendHeader (appendHeader (appendHeader m
    "user-agent" USER_AGENT)
    "x-api-key" appKey)
    "authorization" accessToken)
    "x-timestamp" tsStr)
    "content-type" "application/json; charset=utf-8"

/-- Header assembly of one attempt (request.rs lines 244–252): client
default headers, then the per-request headers (replacing same-named
defaults), then the five fixed protocol headers appended. -/
def assembledHeaders (defaults caller : List (String × String))
    (appKey accessToken tsStr : String) : HeaderMap :=
  applyFixedHeaders (replaceHeaders (replaceHeaders [] defaults) caller)
    appKey accessToken tsStr

/- ----------------------------------------------------------------
   Endpoint resolution
   ---------------------------------------------------------------- -/

def HTTP_URL : String := "https://openapi.longportapp.com"
def HTTP_URL_CN : String := "https://openapi.longportapp.cn"

/-- `http_url` (request.rs lines 218–224).  The second component records
whether the `is_cn()` jurisdiction predicate was awaited: with a
configured override the function returns before ever touching it. -/
def http_url (override : Option String) (is_cn : Bool) : String × Bool :=
  match override with
  | some url => (url, false)
  | none => (if is_cn then HTTP_URL_CN else HTTP_URL, true)

/- ----------------------------------------------------------------
   Response classification (request.rs lines 292–330)
   ---------------------------------------------------------------- -/

/-- `HeaderValue::to_str`: succeeds iff every byte is visible ASCII
(32–126) or tab. -/
def headerValueToStr (bytes : List Nat) : Option String :=
  if bytes.all (fun b => (32 ≤ b && b < 127) || b == 9) then
    some (String.mk (bytes.map fun b => Char.ofNat b))
  else none

/-- Trace-id extraction (request.rs lines 298–303):
`headers().get("x-trace-id").and_then(to_str.ok).unwrap_or_default()`. -/
def extractTraceId (h : Option (List Nat)) : String :=
  match h with
  | none => ""
  | some bytes => (headerValueToStr bytes).getD ""

/-- The envelope classification `match` of `do_send` (request.rs lines
315–326).  `parse` is the outcome of
`serde_json::from_str::<OpenApiResponse>(&text)`; on success with
`code == 0` the raw `data` payload is produced. -/
def classifyEnvelope (parse : Except String OpenApiResponse)
    (status : Nat) (trace_id : String) : Except HttpClientError String :=
  match parse with
  | .ok resp =>
    if resp.code = 0 then
      match resp.data with
      | some d => .ok d
      | none => .error .UnexpectedResponse
    else
      .error (.OpenApi resp.code resp.message trace_id)
  | .error err =>
    if status = 200 then .error (.DeserializeResponseBody err)
    else .error (.BadStatus status)

/-- Envelope classification followed by the response-payload decode
(request.rs lines 315–329): `R::parse_from_bytes` on the raw `data`,
with decode failure wrapped as `DeserializeResponseBody`.  `dec` is the
response type's `FromPayload::parse_from_bytes`. -/
def attemptClassify {ρ : Type} (dec : String → Except String ρ)
    (parse : Except String OpenApiResponse) (status : Nat)
    (trace_id : String) : Except HttpClientError ρ :=
  match classifyEnvelope parse status trace_id with
  | .error e => .error e
  | .ok d =>
    match dec d with
    | .ok v => .ok v
    | .error e => .error (.DeserializeResponseBody e)

/-- `impl FromPayload for ()` (request.rs lines 94–101): the error type
is `Infallible` (`Empty`) and every byte sequence parses to `()`. -/
def unitParseFromBytes (data : List Nat) : Except Empty Unit :=
  .ok ()

/-- The unit codec as used in the decode position of `do_send`: an
`Infallible` error can never be produced, so the lift to a
string-message decoder is total with no error case. -/
def unitDecoder (raw : String) : Except String Unit :=
  match unitParseFromBytes (raw.toUTF8.toList.map UInt8.toNat) with
  | .ok v => .ok v

/- ----------------------------------------------------------------
   Retry delays: Rust `f32` round-trip of `Duration`
   (request.rs lines 345–346)
   ---------------------------------------------------------------- -/

/-- An exact (unnormalized) fraction `n / d` with `d > 0` in every use
below; plain structural arithmetic so that the kernel can evaluate it. -/
structure Frac where
  n : Int
  d : Nat
deriving Repr

def Frac.ofNat (x : Nat) : Frac := ⟨x, 1⟩
def Frac.add (a b : Frac) : Frac := ⟨a.n * b.d + b.n * a.d, a.d * b.d⟩
def Frac.mul (a b : Frac) : Frac := ⟨a.n * b.n, a.d * b.d⟩
/-- Exact quotient; meaningful only for positive `b`, the sole use here. -/
def Frac.quot (a b : Frac) : Frac := ⟨a.n * b.d, a.d * b.n.toNat⟩
def Frac.blt (a b : Frac) : Bool := a.n * b.d < b.n * a.d
def Frac.ble (a b : Frac) : Bool := a.n * b.d ≤ b.n * a.d

/-- Round an exact fraction to the nearest integer, ties to even. -/
def roundHalfEven (q : Frac) : Int :=
  let n := q.n
  let d : Int := (q.d : Int)
  let fl := n.fdiv d
  let r := n - fl * d
  if 2 * r < d then fl
  else if d < 2 * r then fl + 1
  else if fl % 2 = 0 then fl else fl + 1

/-- Scale a positive fraction into `[2^23, 2^24)`, returning the scaled
significand and the binary exponent taken out. -/
def f32normalize : Nat → Frac × Int → Frac × Int
  | 0, p => p
  | fuel + 1, (q, e) =>
    if q.blt (Frac.ofNat 8388608) then f32normalize fuel (⟨q.n * 2, q.d⟩, e - 1)
    else if (Frac.ofNat 16777216).ble q then f32normalize fuel (⟨q.n, q.d * 2⟩, e + 1)
    else (q, e)

def dyadic (m : Int) (e : Int) : Frac :=
  if 0 ≤ e then ⟨m * (2 ^ e.toNat : Nat), 1⟩ else ⟨m, 2 ^ (-e).toNat⟩

/-- Round a nonnegative fraction to the nearest IEEE-754 binary32 value
(round to nearest, ties to even); all quantities in this development are
well inside the normal range, so no subnormal or overflow handling is
needed. -/
def roundF32 (q : Frac) : Frac :=
  if q.n ≤ 0 then ⟨0, 1⟩
  else
    let p := f32normalize 300 (q, 0)
    dyadic (roundHalfEven p.1) p.2

def f32ofNat (x : Nat) : Frac := roundF32 (Frac.ofNat x)
def f32add (a b : Frac) : Frac := roundF32 (a.add b)
def f32div (a b : Frac) : Frac := roundF32 (a.quot b)
def f32mul (a b : Frac) : Frac := roundF32 (a.mul b)

def NANOS_PER_SEC : Nat := 1000000000

/-- `Duration::as_secs_f32` on a duration of `d` nanoseconds:
`(secs as f32) + (subsec_nanos as f32) / (NANOS_PER_SEC as f32)`,
every cast and operation rounded to nearest `f32`. -/
def as_secs_f32 (d : Nat) : Frac :=
  f32add (f32ofNat (d / NANOS_PER_SEC))
    (f32div (f32ofNat (d % NANOS_PER_SEC)) (f32ofNat NANOS_PER_SEC))

/-- `Duration::from_secs_f32`: the exact value of the `f32` is converted
to nanoseconds rounded to nearest, ties to even (Rust ≥ 1.60
`try_from_secs` semantics). -/
def from_secs_f32 (secs : Frac) : Nat :=
  (roundHalfEven (secs.mul (Frac.ofNat NANOS_PER_SEC))).toNat

def RETRY_FACTOR : Frac := Frac.ofNat 2

/-- One backoff-doubling step (request.rs lines 345–346):
`Duration::from_secs_f32(retry_delay.as_secs_f32() * RETRY_FACTOR)`. -/
def nextDelay (d : Nat) : Nat :=
  from_secs_f32 (f32mul (as_secs_f32 d) RETRY_FACTOR)

def RETRY_COUNT : Nat := 5

/-- `RETRY_INITIAL_DELAY = Duration::from_millis(100)`, in nanoseconds. -/
def RETRY_INITIAL_DELAY : Nat := 100000000

/- ----------------------------------------------------------------
   The `send` retry controller (request.rs lines 333–357)
   ---------------------------------------------------------------- -/

/-- Observable trace of one `send` call: the returned result, the
durations (in nanoseconds) passed to `tokio::time::sleep` in order, and
how many times `do_send` was invoked. -/
structure SendTrace (ρ : Type) where
  result : Except HttpClientError ρ
  delays : List Nat
  attemptsMade : Nat
deriving Repr

/-- The `for _ in 0..RETRY_COUNT` loop of `send` (request.rs lines
339–351): sleep the current delay, re-run `do_send`; a 429 bad status
doubles the delay and continues, anything else returns.  `attempts i` is
the outcome of the `i`-th `do_send` invocation; `i` is both the index of
the next attempt and the number of attempts already made. -/
def sendLoop {ρ : Type} (attempts : Nat → Except HttpClientError ρ) :
    Nat → Nat → Nat → List Nat → SendTrace ρ
  | 0, i, _delay, acc => ⟨.error (.BadStatus 429), acc, i⟩
  | fuel + 1, i, delay, acc =>
    match attempts i with
    | .ok r => ⟨.ok r, acc ++ [delay], i + 1⟩
    | .error e =>
      if e = .BadStatus 429 then
        sendLoop attempts fuel (i + 1) (nextDelay delay) (acc ++ [delay])
      else ⟨.error e, acc ++ [delay], i + 1⟩

/-- `send` (request.rs lines 333–357): one `do_send`; on a 429 bad
status enter the bounded retry loop with the initial 100 ms delay; any
other outcome is returned as is. -/
def send {ρ : Type} (attempts : Nat → Except HttpClientError ρ) : SendTrace ρ :=
  match attempts 0 with
  | .ok r => ⟨.ok r, [], 1⟩
  | .error e =>
    if e = .BadStatus 429 then
      sendLoop attempts RETRY_COUNT 1 RETRY_INITIAL_DELAY []
    else ⟨.error e, [], 1⟩

/-- The delay sequence produced by starting the loop at `delay` with
`fuel` sleeps remaining. -/
def delaysFrom (delay : Nat) : Nat → List Nat
  | 0 => []
  | fuel + 1 => delay :: delaysFrom (nextDelay delay) fuel

/- ----------------------------------------------------------------
   One full attempt: `do_send` (request.rs lines 226–330)
   ---------------------------------------------------------------- -/

/-- Client configuration consumed by `do_send` (spec §6): credentials
and the optional base-URL override. -/
structure Config where
  app_key : String
  access_token : String
  app_secret : String
  http_url : Option String

/-- Outcome of the bounded network exchange of one attempt (request.rs
lines 292–311): the 30 s timeout fired, the transport (or the body
read) failed, or a response arrived with a status code, an optional raw
`x-trace-id` header value, and a body whose envelope parse outcome is
`bodyParse`. -/
inductive TransportOutcome where
  | timeout
  | failure (msg : String)
  | response (status : Nat) (traceHeader : Option (List Nat))
      (bodyParse : Except String OpenApiResponse)

/-- Per-attempt external world: the jurisdiction predicate's answer, the
fresh `Timestamp::now()` value, the signature computed by the external
signer for this attempt, and the transport outcome. -/
structure AttemptEnv where
  is_cn : Bool
  now : Nat
  sign : String
  transport : TransportOutcome

/-- One attempt, `do_send` (request.rs lines 226–330), with every
fallible external step an explicit parameter:

* `parseTs` — Modelled from the spec: the `Timestamp` parser
  (`crate::timestamp`, not under `src/`); spec §4.4 step 1: a parseable
  pre-set `X-Timestamp` header is used, else a fresh timestamp.
* `bodyEncode` — outcome of `ToPayload::to_bytes` when a body is set.
* `queryString` — Modelled from the spec: the query-string codec
  (`crate::qs`, not under `src/`) is `encode(value) -> string`
  (spec §6), with no failure mode, so the encoded string is passed in.
* request building and the signature header — Modelled from the spec:
  spec §4.4 steps 2 and 5 assemble the URL and attach the signature
  header with no failure mode, so the two `expect` points are modelled
  as the non-failing operations the spec describes.
* `dec` — the response type's `FromPayload::parse_from_bytes`. -/
def do_send {ρ : Type} (parseTs : String → Option Nat) (cfg : Config)
    (defaultHeaders callerHeaders : List (String × String))
    (method path : String)
    (bodyEncode : Option (Except String (List Nat)))
    (queryString : Option String)
    (dec : String → Except String ρ) (env : AttemptEnv) :
    Except HttpClientError ρ :=
  let timestamp :=
    ((lookupHeader callerHeaders "x-timestamp").bind parseTs).getD env.now
  if isValidHeaderValue cfg.app_key = false then .error .InvalidApiKey
  else if isValidHeaderValue cfg.access_token = false then
    .error .InvalidAccessToken
  else
    let baseUrl := (http_url cfg.http_url env.is_cn).1
    let transmitted := assembledHeaders defaultHeaders callerHeaders
      cfg.app_key cfg.access_token (toString timestamp)
    match bodyEncode with
    | some (.error e) => .error (.SerializeRequestBody e)
    | _ =>
      let fullUrl := baseUrl ++ path ++
        (match queryString with | some q => "?" ++ q | none => "")
      let signedHeaders := insertHeader transmitted "x-api-signature" env.sign
      match env.transport with
      | .timeout => .error .RequestTimeout
      | .failure m => .error (.Http m)
      | .response status traceHeader bodyParse =>
        attemptClassify dec bodyParse status (extractTraceId traceHeader)

/-- `send` on top of `do_send`: attempt `i` runs against the `i`-th
external world.  Each attempt re-reads the jurisdiction predicate,
timestamp and signature from its own environment. -/
def sendFull {ρ : Type} (parseTs : String → Option Nat) (cfg : Config)
    (defaultHeaders callerHeaders : List (String × String))
    (method path : String)
    (bodyEncode : Option (Except String (List Nat)))
    (queryString : Option String)
    (dec : String → Except String ρ) (envs : Nat → AttemptEnv) :
    SendTrace ρ :=
  send fun i =>
    do_send parseTs cfg defaultHeaders callerHeaders method path
      bodyEncode queryString dec (envs i)

/-- The error kinds enumerated by spec §7. -/
def isEnumeratedError : HttpClientError → Bool
  | .InvalidApiKey => true
  | .InvalidAccessToken => true
  | .SerializeRequestBody _ => true
  | .DeserializeResponseBody _ => true
  | .RequestTimeout => true
  | .Http _ => true
  | .BadStatus _ => true
  | .OpenApi _ _ _ => true
  | .UnexpectedResponse => true

/- ----------------------------------------------------------------
   Concrete inputs used by witnesses and counterexamples
   ---------------------------------------------------------------- -/

/-- An attempt sequence in which every attempt fails with bad status
429 (a server rate-limiting every request). -/
def all429 : Nat → Except HttpClientError Nat :=
  fun _ => .error (.BadStatus 429)

/-- An attempt sequence whose first attempt succeeds. -/
def okFirst : Nat → Except HttpClientError Nat :=
  fun _ => .ok 0

/-- An attempt sequence that is rate limited once and succeeds on the
second attempt. -/
def okSecond : Nat → Except HttpClientError Nat :=
  fun i => if i = 0 then .error (.BadStatus 429) else .ok 7

/- ================================================================
   Helper lemmas
   ================================================================ -/

theorem getAll_append (m1 m2 : HeaderMap) (k : String) :
    getAll (m1 ++ m2) k = getAll m1 k ++ getAll m2 k := by
  simp [getAll, List.filter_append]

theorem getAll_single (k v q : String) :
    getAll [(k, v)] q = if k == q then [v] else [] := by
  by_cases h : k == q <;> simp [getAll, List.filter, h]

theorem getAll_filter_ne (m : HeaderMap) (k : String) :
    getAll (List.filter (fun p => !(p.1 == k)) m) k = [] := by
  induction m with
  | nil => rfl
  | cons a t ih =>
    by_cases h : a.1 == k
    · simp only [List.filter, h]
      exact ih
    · simp [getAll, List.filter, h]

theorem getAll_appendHeader (m : HeaderMap) (k v q : String) :
    getAll (appendHeader m k v) q = getAll m q ++ if k == q then [v] else [] := by
  rw [appendHeader, getAll_append, getAll_single]

/-- Every attempt index strictly below `k` (with `k` within the loop's
range and reached) was a 429 bad status, and a non-429 outcome at index
`k` is returned as is after exactly `k + 1` attempts. -/
theorem sendLoop_spec {ρ : Type} (attempts : Nat → Except HttpClientError ρ) (fuel : Nat) :
    ∀ (i delay : Nat) (acc : List Nat) (k : Nat), i ≤ k →
      k < (sendLoop attempts fuel i delay acc).attemptsMade →
      (∀ j, i ≤ j → j < k → attempts j = .error (.BadStatus 429)) ∧
      (attempts k ≠ .error (.BadStatus 429) →
        (sendLoop attempts fuel i delay acc).result = attempts k ∧
        (sendLoop attempts fuel i delay acc).attemptsMade = k + 1) := by
  induction fuel with
  | zero =>
    intro i delay acc k hik hk
    simp [sendLoop] at hk
    omega
  | succ fuel ih =>
    intro i delay acc k hik hk
    cases h : attempts i with
    | ok r =>
      have eq : sendLoop attempts (fuel + 1) i delay acc = ⟨.ok r, acc ++ [delay], i + 1⟩ := by
        simp [sendLoop, h]
      rw [eq] at hk ⊢
      have hki : k = i := by simp at hk; omega
      subst hki
      refine ⟨fun j h1 h2 => absurd h2 (by omega), fun hne => ⟨h.symm, rfl⟩⟩
    | error e =>
      by_cases he : e = .BadStatus 429
      · subst he
        have eq : sendLoop attempts (fuel + 1) i delay acc =
            sendLoop attempts fuel (i + 1) (nextDelay delay) (acc ++ [delay]) := by
          simp [sendLoop, h]
        rw [eq] at hk ⊢
        rcases Nat.eq_or_lt_of_le hik with hki | hki
        · refine ⟨fun j h1 h2 => absurd h2 (by omega), fun hne => absurd ?_ hne⟩
          rw [hki] at h
          exact h
        · obtain ⟨prior, cond⟩ := ih (i + 1) (nextDelay delay) (acc ++ [delay]) k hki hk
          refine ⟨fun j h1 h2 => ?_, cond⟩
          rcases Nat.eq_or_lt_of_le h1 with h1' | h1'
          · rw [← h1']; exact h
          · exact prior j h1' h2
      · have eq : sendLoop attempts (fuel + 1) i delay acc =
            ⟨.error e, acc ++ [delay], i + 1⟩ := by
          simp [sendLoop, h, he]
        rw [eq] at hk ⊢
        have hki : k = i := by simp at hk; omega
        subst hki
        refine ⟨fun j h1 h2 => absurd h2 (by omega), fun hne => ⟨h.symm, rfl⟩⟩

theorem sendLoop_made_lb {ρ : Type} (attempts : Nat → Except HttpClientError ρ) (fuel : Nat) :
    ∀ (i delay : Nat) (acc : List Nat), i ≤ (sendLoop attempts fuel i delay acc).attemptsMade := by
  induction fuel with
  | zero => intro i delay acc; simp [sendLoop]
  | succ fuel ih =>
    intro i delay acc
    cases h : attempts i with
    | ok r => simp [sendLoop, h]
    | error e =>
      by_cases he : e = .BadStatus 429
      · subst he
        have := ih (i + 1) (nextDelay delay) (acc ++ [delay])
        simp [sendLoop, h]
        omega
      · simp [sendLoop, h, he]

/-- If every attempt before `k` is a 429 and `k` is within the loop's
range, the loop reaches attempt `k`. -/
theorem sendLoop_made_large {ρ : Type} (attempts : Nat → Except HttpClientError ρ) (fuel : Nat) :
    ∀ (i delay : Nat) (acc : List Nat) (k : Nat), i ≤ k → k < i + fuel →
      (∀ j, i ≤ j → j < k → attempts j = .error (.BadStatus 429)) →
      k < (sendLoop attempts fuel i delay acc).attemptsMade := by
  induction fuel with
  | zero => intro i delay acc k h1 h2 h3; omega
  | succ fuel ih =>
    intro i delay acc k h1 h2 h3
    rcases Nat.eq_or_lt_of_le h1 with h1' | h1'
    · cases h : attempts i with
      | ok r => subst h1'; simp [sendLoop, h]
      | error e =>
        by_cases he : e = .BadStatus 429
        · subst he
          have := sendLoop_made_lb attempts fuel (i + 1) (nextDelay delay) (acc ++ [delay])
          subst h1'
          simp [sendLoop, h]
          omega
        · subst h1'; simp [sendLoop, h, he]
    · have h429 := h3 i (le_refl i) h1'
      have hrec := ih (i + 1) (nextDelay delay) (acc ++ [delay]) k h1' (by omega)
        (fun j ha hb => h3 j (by omega) hb)
      have eq : sendLoop attempts (fuel + 1) i delay acc =
          sendLoop attempts fuel (i + 1) (nextDelay delay) (acc ++ [delay]) := by
        simp [sendLoop, h429]
      rw [eq]
      exact hrec

/-- A fully rate-limited loop run: every sleep happens, the delay
doubles through `nextDelay`, and the loop exits with the 429 error. -/
theorem sendLoop_all429 {ρ : Type} (attempts : Nat → Except HttpClientError ρ) (fuel : Nat) :
    ∀ (i delay : Nat) (acc : List Nat),
      (∀ j, i ≤ j → j < i + fuel → attempts j = .error (.BadStatus 429)) →
      sendLoop attempts fuel i delay acc =
        ⟨.error (.BadStatus 429), acc ++ delaysFrom delay fuel, i + fuel⟩ := by
  induction fuel with
  | zero => intro i delay acc h; simp [sendLoop, delaysFrom]
  | succ fuel ih =>
    intro i delay acc h
    have hi : attempts i = .error (.BadStatus 429) := h i (le_refl i) (by omega)
    have eq : sendLoop attempts (fuel + 1) i delay acc =
        sendLoop attempts fuel (i + 1) (nextDelay delay) (acc ++ [delay]) := by
      simp [sendLoop, hi]
    rw [eq, ih (i + 1) (nextDelay delay) (acc ++ [delay])
      (fun j ha hb => h j (by omega) (by omega))]
    simp [delaysFrom]
    omega

/- ================================================================
   Claim theorems
   ================================================================ -/

/-- Claim C1: an attempt beyond the first is made only when every
earlier attempt — in particular the immediately preceding one — failed
with the bad-status-429 error; any other outcome of an attempt (success
or any other error) terminates `send` immediately: it is returned as
`send`'s result and no further attempt is made. -/
theorem send_retry_only_after_429 {ρ : Type} (attempts : Nat → Except HttpClientError ρ)
    (i : Nat) (hi : i < (send attempts).attemptsMade) :
    (∀ j, j < i → attempts j = .error (.BadStatus 429)) ∧
    (attempts i ≠ .error (.BadStatus 429) →
      (send attempts).result = attempts i ∧
      (send attempts).attemptsMade = i + 1) := by
  cases h0 : attempts 0 with
  | ok r =>
    have eq : send attempts = ⟨.ok r, [], 1⟩ := by simp [send, h0]
    rw [eq] at hi ⊢
    have hz : i = 0 := by simp at hi; omega
    subst hz
    exact ⟨fun j hj => absurd hj (by omega), fun hne => ⟨h0.symm, rfl⟩⟩
  | error e =>
    by_cases he : e = .BadStatus 429
    · subst he
      have eq : send attempts = sendLoop attempts RETRY_COUNT 1 RETRY_INITIAL_DELAY [] := by
        simp [send, h0]
      rw [eq] at hi ⊢
      rcases Nat.eq_zero_or_pos i with hz | hpos
      · subst hz
        exact ⟨fun j hj => absurd hj (by omega), fun hne => absurd h0 hne⟩
      · obtain ⟨prior, cond⟩ :=
          sendLoop_spec attempts RETRY_COUNT 1 RETRY_INITIAL_DELAY [] i hpos hi
        refine ⟨fun j hj => ?_, cond⟩
        rcases Nat.eq_zero_or_pos j with rfl | hjpos
        · exact h0
        · exact prior j hjpos hj
    · have eq : send attempts = ⟨.error e, [], 1⟩ := by simp [send, h0, he]
      rw [eq] at hi ⊢
      have hz : i = 0 := by simp at hi; omega
      subst hz
      exact ⟨fun j hj => absurd hj (by omega), fun hne => ⟨h0.symm, rfl⟩⟩

/-- Witness for C1 at the concrete attempt sequence whose first attempt
succeeds: the success is returned and exactly one attempt is made. -/
theorem send_retry_only_after_429_witness :
    (send okFirst).result = okFirst 0 ∧ (send okFirst).attemptsMade = 0 + 1 :=
  (send_retry_only_after_429 okFirst 0 (by decide)).2 (by simp [okFirst])

/-- Claim C2 (amended): under six consecutive 429 responses `send`
makes exactly 6 attempts and returns the 429 bad-status error, sleeping
100 ms before the 2nd attempt and then 200000003 ns, 400000006 ns,
800000012 ns and 1600000024 ns before the 3rd–6th attempts
(approximately 200/400/800/1600 ms; the exact values follow from the
`f32` round-trip `Duration::from_secs_f32(d.as_secs_f32() * 2.0)`); a
success on any of the 2nd–6th attempts stops retrying and is returned. -/
theorem send_rate_limited_six_attempts_exact_delays {ρ : Type}
    (attempts : Nat → Except HttpClientError ρ) :
    ((∀ i, i < 6 → attempts i = .error (.BadStatus 429)) →
      send attempts = ⟨.error (.BadStatus 429),
        [100000000, 200000003, 400000006, 800000012, 1600000024], 6⟩) ∧
    (∀ (k : Nat) (r : ρ), 1 ≤ k → k ≤ 5 →
      (∀ i, i < k → attempts i = .error (.BadStatus 429)) →
      attempts k = .ok r →
      (send attempts).result = .ok r ∧ (send attempts).attemptsMade = k + 1) := by
  constructor
  · intro h
    have h0 := h 0 (by omega)
    have eq : send attempts = sendLoop attempts RETRY_COUNT 1 RETRY_INITIAL_DELAY [] := by
      simp [send, h0]
    rw [eq, sendLoop_all429 attempts RETRY_COUNT 1 RETRY_INITIAL_DELAY []
      (fun j ha hb => h j (by simp [RETRY_COUNT] at hb; omega))]
    rfl
  · intro k r hk1 hk5 hall hok
    have h0 := hall 0 (by omega)
    have eq : send attempts = sendLoop attempts RETRY_COUNT 1 RETRY_INITIAL_DELAY [] := by
      simp [send, h0]
    rw [eq]
    have hk' : k < (sendLoop attempts RETRY_COUNT 1 RETRY_INITIAL_DELAY []).attemptsMade := by
      apply sendLoop_made_large attempts RETRY_COUNT 1 RETRY_INITIAL_DELAY [] k hk1
      · simp [RETRY_COUNT]; omega
      · exact fun j ha hb => hall j hb
    obtain ⟨-, cond⟩ := sendLoop_spec attempts RETRY_COUNT 1 RETRY_INITIAL_DELAY [] k hk1 hk'
    have hc := cond (by simp [hok])
    rw [hok] at hc
    exact hc

/-- Counterexample for C2 as stated: under six consecutive 429s the
sleeps requested from `tokio::time::sleep` are not
100/200/400/800/1600 ms — from the second sleep on they differ by a few
nanoseconds because the delay is doubled through an `f32` round-trip. -/
theorem send_backoff_delays_not_exact_milliseconds :
    (send all429).delays = [100000000, 200000003, 400000006, 800000012, 1600000024] ∧
    (send all429).delays ≠ [100000000, 200000000, 400000000, 800000000, 1600000000] := by
  constructor
  · rfl
  · decide

/-- Witness for C2 (amended): the all-429 sequence makes 6 attempts with
the exact delay list, and a sequence succeeding on the 2nd attempt stops
after 2 attempts with the success returned. -/
theorem send_rate_limited_six_attempts_exact_delays_witness :
    send all429 = ⟨.error (.BadStatus 429),
      [100000000, 200000003, 400000006, 800000012, 1600000024], 6⟩ ∧
    ((send okSecond).result = .ok 7 ∧ (send okSecond).attemptsMade = 1 + 1) :=
  ⟨(send_rate_limited_six_attempts_exact_delays all429).1 (fun i _ => rfl),
   (send_rate_limited_six_attempts_exact_delays okSecond).2 1 7 (le_refl 1) (by omega)
     (fun i hi => by
       have hz : i = 0 := by omega
       subst hz
       rfl) rfl⟩

/-- Claim C3: a response whose envelope parses with `code = 0` and
absent (`null`) `data` yields the unexpected-response error, for every
HTTP status, every trace id and every response-type decoder — including
the unit response type. -/
theorem code_zero_null_data_unexpected_response {ρ : Type}
    (dec : String → Except String ρ) (msg : String) (status : Nat) (tid : String) :
    attemptClassify dec (.ok ⟨0, msg, none⟩) status tid = .error .UnexpectedResponse ∧
    attemptClassify unitDecoder (.ok ⟨0, msg, none⟩) status tid =
      .error .UnexpectedResponse :=
  ⟨rfl, rfl⟩

/-- Claim C4: a response whose envelope parses with `code ≠ 0` yields,
for every HTTP status, the domain (`OpenApi`) error carrying exactly
that envelope's code and message and the trace id extracted from the
response's `x-trace-id` header; an absent header extracts to the empty
string. -/
theorem nonzero_code_domain_error {ρ : Type} (dec : String → Except String ρ)
    (code : Int) (msg : String) (d : Option String) (status : Nat)
    (raw : Option (List Nat)) (h : code ≠ 0) :
    attemptClassify dec (.ok ⟨code, msg, d⟩) status (extractTraceId raw) =
      .error (.OpenApi code msg (extractTraceId raw)) ∧
    extractTraceId none = "" := by
  refine ⟨?_, rfl⟩
  simp [attemptClassify, classifyEnvelope, h]

/-- Witness for C4 at code 200100, HTTP 200, a present trace header. -/
theorem nonzero_code_domain_error_witness :
    attemptClassify unitDecoder (.ok ⟨200100, "error", none⟩) 200
      (extractTraceId (some [97])) =
      .error (.OpenApi 200100 "error" (extractTraceId (some [97]))) ∧
    extractTraceId none = "" :=
  nonzero_code_domain_error unitDecoder 200100 "error" none 200 (some [97]) (by decide)

/-- Claim C5: a response body whose envelope parse fails yields the
deserialize-response-body error when the HTTP status is 200, and the
bad-status error carrying the HTTP status otherwise. -/
theorem parse_failure_status_classification {ρ : Type}
    (dec : String → Except String ρ) (err : String) (status : Nat) (tid : String) :
    attemptClassify dec (.error err) status tid =
      .error (if status = 200 then .DeserializeResponseBody err else .BadStatus status) := by
  by_cases h : status = 200 <;> simp [attemptClassify, classifyEnvelope, h]

/-- Claim C6: with a configured base-URL override the resolved base URL
is the override and the jurisdiction predicate is not consulted; without
an override the predicate is consulted and selects the CN endpoint when
it answers true and the international endpoint otherwise. -/
theorem base_url_override_skips_jurisdiction :
    (∀ (url : String) (b : Bool), http_url (some url) b = (url, false)) ∧
    (∀ b : Bool, http_url none b = ((if b then HTTP_URL_CN else HTTP_URL), true)) :=
  ⟨fun _ _ => rfl, fun _ => rfl⟩

/-- Claim C7: `RequestBuilder::header` with an invalid name or value is
a silent no-op (the header map is returned unchanged, no error), and
setting the same (valid) name twice leaves only the last value in the
builder's header map. -/
theorem header_invalid_silent_noop_last_wins (m : HeaderMap) (k v v2 : String) :
    (¬(isValidHeaderName k = true ∧ isValidHeaderValue v = true) →
      builderHeader m k v = m) ∧
    (isValidHeaderName k = true → isValidHeaderValue v = true →
      isValidHeaderValue v2 = true →
      getAll (builderHeader (builderHeader m k v) k v2) (toLowerName k) = [v2]) := by
  constructor
  · intro h
    unfold builderHeader
    rw [if_neg (fun hc => h (by rwa [Bool.and_eq_true] at hc))]
  · intro h1 h2 h3
    simp only [builderHeader, h1, h2, h3, Bool.and_self, if_true]
    rw [show insertHeader (insertHeader m (toLowerName k) v) (toLowerName k) v2 =
        List.filter (fun p => !(p.1 == toLowerName k)) (insertHeader m (toLowerName k) v) ++
          [(toLowerName k, v2)] from rfl]
    rw [getAll_append, getAll_filter_ne, getAll_single]
    simp

/-- Witness for C7: a name with a space is silently dropped leaving the
map unchanged, and re-setting `X-Test` keeps only the newest value. -/
theorem header_invalid_silent_noop_last_wins_witness :
    builderHeader [("x-a", "1")] "bad name" "v" = [("x-a", "1")] ∧
    getAll (builderHeader (builderHeader [] "X-Test" "v1") "X-Test" "v2")
      (toLowerName "X-Test") = ["v2"] :=
  ⟨(header_invalid_silent_noop_last_wins [("x-a", "1")] "bad name" "v" "w").1 (by decide),
   (header_invalid_silent_noop_last_wins [] "X-Test" "v1" "v2").2
     (by decide) (by decide) (by decide)⟩

/-- Claim C8 (amended): the five fixed protocol headers are applied
after client defaults and per-request headers, but through
`HeaderMap::append`: the transmitted request always carries the fixed
protocol value as the last value of the name, while same-named
caller-supplied values are retained before it rather than overridden. -/
theorem fixed_headers_appended_after_caller (defaults caller : List (String × String))
    (appKey accessToken tsStr : String) :
    getAll (assembledHeaders defaults caller appKey accessToken tsStr) "user-agent" =
      getAll (replaceHeaders (replaceHeaders [] defaults) caller) "user-agent"
        ++ [USER_AGENT] ∧
    getAll (assembledHeaders defaults caller appKey accessToken tsStr) "x-api-key" =
      getAll (replaceHeaders (replaceHeaders [] defaults) caller) "x-api-key"
        ++ [appKey] ∧
    getAll (assembledHeaders defaults caller appKey accessToken tsStr) "authorization" =
      getAll (replaceHeaders (replaceHeaders [] defaults) caller) "authorization"
        ++ [accessToken] ∧
    getAll (assembledHeaders defaults caller appKey accessToken tsStr) "x-timestamp" =
      getAll (replaceHeaders (replaceHeaders [] defaults) caller) "x-timestamp"
        ++ [tsStr] ∧
    getAll (assembledHeaders defaults caller appKey accessToken tsStr) "content-type" =
      getAll (replaceHeaders (replaceHeaders [] defaults) caller) "content-type"
        ++ ["application/json; charset=utf-8"] := by
  refine ⟨?_, ?_, ?_, ?_, ?_⟩ <;>
    simp [assembledHeaders, applyFixedHeaders, getAll_appendHeader, USER_AGENT]

/-- Counterexample for C8 as stated: a caller-supplied `user-agent`
header is not overridden by the fixed protocol value — the transmitted
map carries both values, the caller's first, so the values for the name
are not exactly the fixed protocol value. -/
theorem fixed_headers_do_not_override_counterexample :
    getAll (assembledHeaders [] [("user-agent", "custom-agent")] "key" "token" "123")
        "user-agent" = ["custom-agent", "openapi-sdk"] ∧
    getAll (assembledHeaders [] [("user-agent", "custom-agent")] "key" "token" "123")
        "user-agent" ≠ ["openapi-sdk"] := by
  constructor
  · decide
  · decide

/-- Claim C9: for every configuration, header set, body/query/response
combination and every sequence of external outcomes (timeouts, transport
failures, arbitrary statuses, envelope parses and decoder results),
`send` over `do_send` returns either a decoded value or an error of one
of the enumerated kinds; the embedded pipeline is total — no attempt
aborts outside this classification. -/
theorem send_result_total_enumerated {ρ : Type} (parseTs : String → Option Nat)
    (cfg : Config) (defaults caller : List (String × String)) (method path : String)
    (bodyEncode : Option (Except String (List Nat))) (queryString : Option String)
    (dec : String → Except String ρ) (envs : Nat → AttemptEnv) :
    (∃ v, (sendFull parseTs cfg defaults caller method path bodyEncode queryString
      dec envs).result = .ok v) ∨
    (∃ e, (sendFull parseTs cfg defaults caller method path bodyEncode queryString
      dec envs).result = .error e ∧ isEnumeratedError e = true) := by
  cases h : (sendFull parseTs cfg defaults caller method path bodyEncode queryString
      dec envs).result with
  | ok v => exact .inl ⟨v, rfl⟩
  | error e => exact .inr ⟨e, rfl, by cases e <;> rfl⟩

/-- Claim C10: the unit response codec never fails — every byte sequence
parses to `()` — so once the envelope classifies as success with present
`data`, the final decode step of an attempt with the unit response type
cannot produce a deserialize error: it succeeds outright. -/
theorem unit_payload_never_fails (data : List Nat) (msg d : String)
    (status : Nat) (tid : String) :
    unitParseFromBytes data = .ok () ∧
    attemptClassify unitDecoder (.ok ⟨0, msg, some d⟩) status tid = .ok () :=
  ⟨rfl, rfl⟩

end OpenApiHttp
